import Mathlib

/-!
Verification development for the real-time session layer of the
react-vaani chat-and-calling client.

The source under scrutiny consists of a Socket.IO connection manager
(class SocketManager), the Dashboard component driving WebRTC call
signaling (startCall, answerCall, rejectCall, endCall, the
receiveMessage, messageStatusUpdate, iceCandidate, callEnded and
participantJoinedAck socket handlers, sendMessage), and the group-call
coordination functions.

Each namespace below embeds the state and transition logic of one part
of the source as executable Lean definitions and proves the stated
properties about them.  Source locations are given as comments on the
definitions (file part_001 is socketManager.js, file part_002 is
Dashboard.jsx).
-/

/-- Delivery status of a chat message, as carried by the
`messageStatusUpdate` socket payloads and the local message records
(Dashboard.jsx): queued on optimistic creation, then sent, delivered,
seen. -/
inductive MsgStatus where
  | queued
  | sent
  | delivered
  | seen
deriving DecidableEq, Repr

/-- A local chat-message record as kept in the `messages` React state of
Dashboard.jsx.  In the source a record carries `_id` and `id` (always
equal where relevant: the optimistic record sets both to the client temp
id, a persisted record carries the server id in both) which we model as
the single field `rid`, plus the optional client correlation token
`clientTempId` and a delivery status. -/
structure MsgRec where
  rid : Nat
  tempId : Option Nat
  status : MsgStatus
deriving DecidableEq, Repr

namespace Transport

/-- Socket.IO transport kinds used by SocketManager.connect
(socketManager.js line 42): polling is the fallback, websocket the
full-duplex transport. -/
inductive Kind where
  | polling
  | websocket
deriving DecidableEq, Repr

/-- Connection-manager state relevant to transport selection
(socketManager.js): `useWebSocket` is the full-duplex flag,
`attemptCount` the consecutive-failure counter, `transports` the
transport list passed to the current socket. -/
structure CM where
  useWebSocket : Bool
  attemptCount : Nat
  transports : List Kind
deriving DecidableEq, Repr

/-- The transport option list built by SocketManager.connect
(socketManager.js lines 42-44): with the full-duplex flag the list is
polling-then-websocket, otherwise polling only. -/
def transportsFor (ws : Bool) : List Kind :=
  if ws then [Kind.polling, Kind.websocket] else [Kind.polling]

/-- SocketManager.connect as far as transport selection is concerned
(socketManager.js lines 37-68): the new socket is created with the
transport list derived from the current full-duplex flag. -/
def cmConnect (s : CM) : CM :=
  { s with transports := transportsFor s.useWebSocket }

/-- Events observed by the connection manager that touch the
transport-selection state: a connect_error, a successful connect, and an
explicit call to connect(). -/
inductive CMEvent where
  | connectError
  | connectSuccess
  | connectCall
deriving DecidableEq, Repr

/-- One step of the connection manager (socketManager.js setupListeners,
lines 77-103): on connect_error the attempt counter is incremented and,
once it reaches 3 while the full-duplex flag is set, the flag is cleared
and connect() is re-entered; on a successful connect the counter is
reset to 0; connect() rebuilds the transport list. -/
def cmStep (s : CM) : CMEvent → CM
  | CMEvent.connectError =>
    if 3 ≤ s.attemptCount + 1 ∧ s.useWebSocket then
      cmConnect { useWebSocket := false, attemptCount := s.attemptCount + 1,
                  transports := s.transports }
    else
      { s with attemptCount := s.attemptCount + 1 }
  | CMEvent.connectSuccess => { s with attemptCount := 0 }
  | CMEvent.connectCall => cmConnect s

/-- Run the connection manager over a sequence of events. -/
def cmRun (s : CM) (es : List CMEvent) : CM :=
  es.foldl cmStep s

/-- The initial manager state (socketManager.js constructor, lines
16-19): full-duplex enabled, zero failed attempts; the first connect
then installs the polling-and-websocket transport list. -/
def cmInit : CM :=
  { useWebSocket := true, attemptCount := 0, transports := transportsFor true }

end Transport

namespace Conn

/-- State of the process as far as socket ownership is concerned
(socketManager.js).  `live i` records whether the i-th socket ever
created is still connected (io() starts it live, disconnect() kills it),
`nextId` the number of sockets created so far, `current` the index held
in `this.socket`, plus the heartbeat interval and the `isConnected`
flag. -/
structure World where
  live : Nat → Bool
  nextId : Nat
  current : Option Nat
  heartbeat : Bool
  isConnected : Bool

/-- Pointwise update of the socket-liveness map. -/
def setLive (f : Nat → Bool) (i : Nat) (b : Bool) : Nat → Bool :=
  fun j => if j = i then b else f j

/-- SocketManager.stopHeartbeat (socketManager.js lines 305-311):
clears the heartbeat interval. -/
def stopHeartbeat (w : World) : World :=
  { w with heartbeat := false }

/-- SocketManager.cleanup (socketManager.js lines 239-260): stops the
heartbeat, then if a socket is held, disconnects it and drops the
reference; finally clears isConnected. -/
def cleanup (w : World) : World :=
  let w1 := stopHeartbeat w
  match w1.current with
  | none => { w1 with isConnected := false }
  | some i =>
    { live := setLive w1.live i false, nextId := w1.nextId, current := none,
      heartbeat := w1.heartbeat, isConnected := false }

/-- SocketManager.connect (socketManager.js lines 37-68): if a socket is
held, cleanup() is called first; then a fresh socket is created via io()
and stored in `this.socket`. -/
def connect (w : World) : World :=
  let w1 := if w.current.isSome then cleanup w else w
  { live := setLive w1.live w1.nextId true, nextId := w1.nextId + 1,
    current := some w1.nextId, heartbeat := w1.heartbeat, isConnected := w1.isConnected }

/-- Operations that touch socket ownership: an external connect() call,
an external cleanup() call, the socket firing its disconnect event
(handler at socketManager.js lines 86-92), and the socket firing its
connect event (handler at lines 77-84). -/
inductive Op where
  | connectCall
  | cleanupCall
  | disconnectEv
  | connectEv
deriving DecidableEq, Repr

/-- One step of the socket-ownership state machine. -/
def step (w : World) : Op → World
  | Op.connectCall => connect w
  | Op.cleanupCall => cleanup w
  | Op.disconnectEv =>
    match w.current with
    | none => w
    | some i =>
      { live := setLive w.live i false, nextId := w.nextId, current := w.current,
        heartbeat := false, isConnected := false }
  | Op.connectEv =>
    match w.current with
    | none => w
    | some i =>
      { live := setLive w.live i true, nextId := w.nextId, current := w.current,
        heartbeat := true, isConnected := true }

/-- Run the socket-ownership machine over a sequence of operations. -/
def run (w : World) (ops : List Op) : World :=
  ops.foldl step w

/-- The initial world: no socket created yet (SocketManager constructor,
socketManager.js lines 9-20). -/
def winit : World :=
  { live := fun _ => false, nextId := 0, current := none,
    heartbeat := false, isConnected := false }

/-- Ownership invariant: every live socket is the one currently held,
and the held index is a socket that was actually created. -/
def WInv (w : World) : Prop :=
  (∀ i, w.live i = true → w.current = some i) ∧
  (∀ i, w.current = some i → i < w.nextId)

end Conn

namespace Registry

/-- An (event name, handler function) pair, both modelled as naturals.
The registry of SocketManager maps event names to sets of handlers; we
flatten it to a list of pairs with set semantics. -/
abbrev Pair := Nat × Nat

/-- The registry-relevant state of SocketManager: the durable handler
registry (`this.eventHandlers`, a Map of Sets) and, when a socket
exists, the multiset of (event, handler) attachments made on it via
`socket.on`. -/
structure SM where
  registry : List Pair
  socketAttached : Option (List Pair)
deriving DecidableEq, Repr

/-- Multiplicity of a pair in an attachment list. -/
def pcount (p : Pair) : List Pair → Nat
  | [] => 0
  | q :: rest => (if q = p then 1 else 0) + pcount p rest

/-- SocketManager.on (socketManager.js lines 162-178): the handler is
always stored in the registry (the Set makes this idempotent), and if a
socket already exists, `socket.on(event, handler)` is called
unconditionally, adding one more attachment. -/
def smOn (s : SM) (p : Pair) : SM :=
  { registry := if p ∈ s.registry then s.registry else s.registry ++ [p],
    socketAttached := s.socketAttached.map (fun att => att ++ [p]) }

/-- SocketManager.connect plus setupListeners as far as custom handlers
are concerned (socketManager.js lines 37-68 and 112-116): any old socket
is destroyed and a fresh one is created, and setupListeners walks the
registry attaching every stored handler exactly once on the new
socket. -/
def smConnect (s : SM) : SM :=
  { registry := s.registry, socketAttached := some s.registry }

/-- Registration operations: a call to on(event, handler) or a call to
connect(). -/
inductive RegOp where
  | onCall : Pair → RegOp
  | connectCall : RegOp
deriving DecidableEq, Repr

/-- One registry step. -/
def regStep (s : SM) : RegOp → SM
  | RegOp.onCall p => smOn s p
  | RegOp.connectCall => smConnect s

/-- Run the registry machine over a sequence of operations. -/
def regRun (s : SM) (ops : List RegOp) : SM :=
  ops.foldl regStep s

/-- The initial manager: empty registry, no socket (socketManager.js
constructor). -/
def regInit : SM :=
  { registry := [], socketAttached := none }

/-- Number of times the pair is attached on the live socket (0 when no
socket exists). -/
def attachCount (s : SM) (p : Pair) : Nat :=
  match s.socketAttached with
  | none => 0
  | some att => pcount p att

/-- A sequence of operations is clean when no on(event, handler) call
repeats a pair already stored in the registry while a socket exists
(such a call attaches the same handler a second time on the live
socket). -/
def okFrom (s : SM) : List RegOp → Bool
  | [] => true
  | RegOp.onCall p :: rest =>
    (!(s.socketAttached.isSome && decide (p ∈ s.registry))) &&
      okFrom (regStep s (RegOp.onCall p)) rest
  | RegOp.connectCall :: rest => okFrom (smConnect s) rest

/-- Registry invariant: the registry has no duplicate pairs, and when a
socket exists every pair is attached exactly once when registered and
zero times otherwise. -/
def RInv (s : SM) : Prop :=
  s.registry.Nodup ∧
  ∀ att, s.socketAttached = some att →
    ∀ p, pcount p att = if p ∈ s.registry then 1 else 0

end Registry

namespace Reconcile

/-- The dedupe-and-replace logic of the receiveMessage handler
(Dashboard.jsx lines 369-392): if a record with the pushed message's
persisted id is already present, do nothing; otherwise if the push
carries a clientTempId and an optimistic record with that id exists,
replace it in place; otherwise append. -/
def receiveReconcile (msg : MsgRec) (prev : List MsgRec) : List MsgRec :=
  if prev.any (fun m => m.rid = msg.rid) then prev
  else
    match msg.tempId with
    | some t =>
      match prev.findIdx? (fun m => m.rid = t) with
      | some i => prev.set i msg
      | none => prev ++ [msg]
    | none => prev ++ [msg]

/-- The fallback append of sendMessage (Dashboard.jsx lines 920-923),
reached only when the direct request itself rejected: append the
response entity unless a record with its id is already present.  Not
part of the both-arrive scenario (savedViaSocket is non-null whenever
the direct response resolves), embedded for completeness. -/
def apiFallbackAppend (resData : MsgRec) (prev : List MsgRec) : List MsgRec :=
  if prev.any (fun m => m.rid = resData.rid) then prev else prev ++ [resData]

/-- Which of the two outcomes resolves first: the server-pushed
confirmed record within the 700 ms window, or the direct send-request
response. -/
inductive ArrivalOrder where
  | socketFirst
  | apiFirst
deriving DecidableEq, Repr

/-- Final message list produced by sendMessage (Dashboard.jsx lines
847-934) when both the direct response and the server push eventually
arrive.  The optimistic record is appended first (line 868).  If the
push arrives within 700 ms, the registered receiveMessage handler
reconciles it (lines 369-392) while the savedViaSocket branch only
clears the input (lines 912-915) and the direct response is discarded.
If the 700 ms timeout fires first, it resolves the wait with the direct
response entity (lines 887-896), so savedViaSocket is again non-null and
the branch only clears the input; the push then arrives later and the
receiveMessage handler reconciles it.  In both orders exactly one list
mutation happens after the optimistic insert. -/
def runBoth (o : ArrivalOrder) (base : List MsgRec) (optimistic serverMsg : MsgRec) :
    List MsgRec :=
  let afterSend := base ++ [optimistic]
  match o with
  | ArrivalOrder.socketFirst => receiveReconcile serverMsg afterSend
  | ArrivalOrder.apiFirst => receiveReconcile serverMsg afterSend

end Reconcile

namespace StatusUpd

/-- A messageStatusUpdate payload (Dashboard.jsx line 435): optional
persisted message id, optional correlation token, new status. -/
structure UpdPayload where
  messageId : Option Nat
  clientTempId : Option Nat
  status : MsgStatus
deriving DecidableEq, Repr

/-- The lookup key chosen by the handler (Dashboard.jsx line 449):
`messageId || clientTempId` — the payload's persisted id when present,
otherwise the payload's correlation token. -/
def keyOf (p : UpdPayload) : Option Nat :=
  match p.messageId with
  | some k => some k
  | none => p.clientTempId

/-- Whether a local record matches the key (Dashboard.jsx lines
452-458): its own id equals the key, or its correlation token equals the
key. -/
def matchesKey (m : MsgRec) (k : Nat) : Bool :=
  decide (m.rid = k) || decide (m.tempId = some k)

/-- The messageStatusUpdate handler (Dashboard.jsx lines 433-472): a
payload with neither identifier is ignored; otherwise every record
matching the key gets the new status and all others are left as they
are (an unmatched update therefore changes nothing). -/
def handleStatusUpdate (p : UpdPayload) (msgs : List MsgRec) : List MsgRec :=
  match keyOf p with
  | none => msgs
  | some k =>
    msgs.map (fun m => if matchesKey m k then { m with status := p.status } else m)

/-- Modelled from the spec wording of claim C6: a record is matched by
the payload's authoritative identifier first, falling back to the
payload's correlation token when the authoritative identifier is not yet
known locally, i.e. when the record still carries its temporary id as
its identifier. -/
def claimStatusUpdate (p : UpdPayload) (msgs : List MsgRec) : List MsgRec :=
  match p.messageId, p.clientTempId with
  | none, none => msgs
  | _, _ =>
    msgs.map (fun m =>
      if (match p.messageId with
          | some k => decide (m.rid = k)
          | none => false) ||
         (decide (m.tempId = some m.rid) &&
          (match p.clientTempId with
           | some t => decide (m.tempId = some t)
           | none => false))
      then { m with status := p.status } else m)

end StatusUpd

namespace GroupOffer

/-- A participantJoinedAck event as seen by handleParticipantAck
(Dashboard.jsx lines 1709-1785): the session id carried by the payload
(absent payloads are ignored), whether the locally known session names a
different initiator (in which case the handler returns early), and
whether the asynchronous offer creation succeeds for this invocation. -/
structure Ack where
  sid : Option Nat
  otherInitiator : Bool
  offerOk : Bool
deriving DecidableEq, Repr

/-- State of the initiator: the offer-dedupe set
(initiatorOfferSentRef.current), the sequence of session ids for which a
callUser offer was actually emitted, and the handler invocations that
have passed the dedupe check but are still suspended in the awaits
(getUserMedia, createOffer, setLocalDescription) between the check and
the emit-and-record step. -/
structure GS where
  dedupe : List Nat
  offers : List Nat
  pending : List (Nat × Bool)
deriving DecidableEq, Repr

/-- Occurrence count of a session id in a list. -/
def ncount (n : Nat) : List Nat → Nat
  | [] => 0
  | m :: rest => (if m = n then 1 else 0) + ncount n rest

/-- Phase A of handleParticipantAck: the synchronous prefix
(Dashboard.jsx lines 1712-1735) running up to the first await: ignore a
payload without callSessionId, return if a known foreign initiator,
return if the session id is already in the dedupe set; otherwise the
invocation suspends, about to create the offer. -/
def arrive (s : GS) (a : Ack) : GS :=
  match a.sid with
  | none => s
  | some sid =>
    if a.otherInitiator then s
    else if sid ∈ s.dedupe then s
    else { s with pending := s.pending ++ [(sid, a.offerOk)] }

/-- Phase B of handleParticipantAck: the continuation after the awaits
(Dashboard.jsx lines 1763-1781): on success the offer is emitted via
callUser and only then is the session id added to the dedupe set; on
failure nothing is emitted or recorded. Completes the i-th suspended
invocation. -/
def complete (s : GS) (i : Nat) : GS :=
  match s.pending[i]? with
  | none => s
  | some (sid, ok) =>
    let rest := s.pending.eraseIdx i
    if ok then { dedupe := sid :: s.dedupe, offers := s.offers ++ [sid], pending := rest }
    else { s with pending := rest }

/-- Interleaved events: an ack being dispatched (phase A) or a suspended
invocation resuming (phase B). -/
inductive GEv where
  | ackEv : Ack → GEv
  | finish : Nat → GEv
deriving DecidableEq, Repr

/-- One interleaved step. -/
def gStep (s : GS) : GEv → GS
  | GEv.ackEv a => arrive s a
  | GEv.finish i => complete s i

/-- Run the interleaved machine. -/
def gRun (s : GS) (es : List GEv) : GS :=
  es.foldl gStep s

/-- Initial initiator state: empty dedupe set, no offer sent, no handler
in flight. -/
def gInit : GS :=
  { dedupe := [], offers := [], pending := [] }

/-- An acknowledgement handled to completion before the next one is
dispatched: phase A immediately followed by its own phase B (nothing
else is pending, so the completed invocation is at index 0). -/
def handleAckSeq (s : GS) (a : Ack) : GS :=
  complete (arrive s a) 0

/-- Sequential (run-to-completion) processing of a list of acks. -/
def seqRun (acks : List Ack) : GS :=
  acks.foldl handleAckSeq gInit

/-- Invariant of sequential processing: no invocation left suspended,
sessions outside the dedupe set have no offer, and no session ever has
more than one offer. -/
def GInv (s : GS) : Prop :=
  s.pending = [] ∧
  ∀ sid : Nat, (sid ∉ s.dedupe → ncount sid s.offers = 0) ∧ ncount sid s.offers ≤ 1

end GroupOffer

namespace Delivery

/-- State of one outgoing private-call delivery race (Dashboard.jsx
startCall, lines 1091-1153): the id of the called user, whether the
5000 ms delivery timer is still armed, whether each of the two temporary
listeners (onDelivered on incomingCallDelivered, onUserUnavailable on
userUnavailable) is still registered, how many times each has been
deregistered, and the terminal outcome flags. -/
structure DS where
  target : Nat
  timerArmed : Bool
  delReg : Bool
  unReg : Bool
  offDel : Nat
  offUn : Nat
  failedTimeout : Bool
  failedUnavailable : Bool
deriving DecidableEq, Repr

/-- Events racing against the delivery timer: an incomingCallDelivered
payload (with its `to` field), a userUnavailable payload (with its `to`
field), and the timer elapsing. -/
inductive DEv where
  | delivered : Nat → DEv
  | unavailable : Nat → DEv
  | timerFire : DEv
deriving DecidableEq, Repr

/-- One step of the delivery race (Dashboard.jsx lines 1094-1149).
onDelivered: only if still registered and the payload is addressed to
the called user, clear the timer and remove both temporary listeners.
onUserUnavailable: same guard, plus the failed-unavailable cleanup.
Timer: fires only while armed, performs the failed-timeout cleanup and
removes both listeners. -/
def dStep (s : DS) : DEv → DS
  | DEv.delivered t =>
    if s.delReg then
      if t = s.target then
        { s with timerArmed := false, delReg := false, unReg := false,
                 offDel := s.offDel + 1, offUn := s.offUn + 1 }
      else s
    else s
  | DEv.unavailable t =>
    if s.unReg then
      if t = s.target then
        { s with timerArmed := false, failedUnavailable := true,
                 delReg := false, unReg := false,
                 offDel := s.offDel + 1, offUn := s.offUn + 1 }
      else s
    else s
  | DEv.timerFire =>
    if s.timerArmed then
      { s with timerArmed := false, failedTimeout := true,
               delReg := false, unReg := false,
               offDel := s.offDel + 1, offUn := s.offUn + 1 }
    else s

/-- Run the race over a sequence of events. -/
def dRun (s : DS) (es : List DEv) : DS :=
  es.foldl dStep s

/-- The state set up by startCall right after emitting callUser: timer
armed, both temporary listeners registered, no outcome yet. -/
def dInit (target : Nat) : DS :=
  { target := target, timerArmed := true, delReg := true, unReg := true,
    offDel := 0, offUn := 0, failedTimeout := false, failedUnavailable := false }

/-- Whether an event is a delivery ack or unavailability signal addressed
to the called user. -/
def addressed (target : Nat) : DEv → Bool
  | DEv.delivered t => t = target
  | DEv.unavailable t => t = target
  | DEv.timerFire => false

/-- State after the delivered path fired. -/
def delState (target : Nat) : DS :=
  { target := target, timerArmed := false, delReg := false, unReg := false,
    offDel := 1, offUn := 1, failedTimeout := false, failedUnavailable := false }

/-- State after the unavailable path fired. -/
def unState (target : Nat) : DS :=
  { target := target, timerArmed := false, delReg := false, unReg := false,
    offDel := 1, offUn := 1, failedTimeout := false, failedUnavailable := true }

/-- State after the timeout path fired. -/
def firedState (target : Nat) : DS :=
  { target := target, timerArmed := false, delReg := false, unReg := false,
    offDel := 1, offUn := 1, failedTimeout := true, failedUnavailable := false }

end Delivery

namespace DeferredOffer

/-- State of an accepted invitation-only incoming call while waiting
for the deferred offer (Dashboard.jsx answerCall, lines 1229-1282):
whether the temporary incomingCall listener handleOffer is still
registered, whether the call became active, the acceptingCall flag, and
how many times an automatic rejection (rejectCall, which emits an
end-of-call signal for the captured incoming call) has been issued. -/
structure AS where
  handlerReg : Bool
  inCall : Bool
  acceptingCall : Bool
  answered : Bool
  rejectIssued : Nat
deriving DecidableEq, Repr

/-- Events reaching the waiting callee: an incomingCall event (carrying
whether it names the same session, whether it carries an offer, and
whether the answer negotiation succeeds), and the 8-second safety timer
elapsing.  The timer handle is discarded by the code (line 1277) and is
never cleared, so the timer event always eventually occurs. -/
inductive AEv where
  | offerEv : Bool → Bool → Bool → AEv
  | timer8s : AEv
deriving DecidableEq, Repr

/-- One step of the deferred-offer wait.  handleOffer (lines 1237-1272):
runs only while registered; a wrong-session or offer-less event returns
early, and the finally block removes the listener in every case; a good
offer that is answered successfully sets the call active; a failed
answer issues a rejection.  The 8-second timer (lines 1277-1282):
removes the listener, clears acceptingCall and calls rejectCall()
unconditionally. -/
def aStep (s : AS) : AEv → AS
  | AEv.offerEv sameSession hasOffer answerOk =>
    if s.handlerReg then
      if ¬sameSession then { s with handlerReg := false }
      else if ¬hasOffer then { s with handlerReg := false }
      else if answerOk then
        { s with handlerReg := false, inCall := true, answered := true }
      else
        { s with handlerReg := false, rejectIssued := s.rejectIssued + 1 }
    else s
  | AEv.timer8s =>
    { s with handlerReg := false, acceptingCall := false,
             rejectIssued := s.rejectIssued + 1 }

/-- Run the deferred-offer wait over a sequence of events. -/
def aRun (s : AS) (es : List AEv) : AS :=
  es.foldl aStep s

/-- State right after answerCall armed the wait (line 1274): listener
registered, accepting, not yet in call, no rejection issued. -/
def aInit : AS :=
  { handlerReg := true, inCall := false, acceptingCall := true,
    answered := false, rejectIssued := 0 }

end DeferredOffer

namespace Teardown

/-- Signals emitted to the other party during teardown: a
leaveCallSession for the active session, or an endCall message. -/
inductive Emission where
  | leaveSession : Nat → Emission
  | endCallMsg : Emission
deriving DecidableEq, Repr

/-- Call-attempt resources visible to endCall (Dashboard.jsx): whether a
ringtone/ringback loop is playing, the liveness flags of acquired local
and remote media tracks, the peer-connection reference (some b: ref set,
b = connection open), the active session, the inCall flag and the
selected call target. -/
structure CallRes where
  ringLoop : Bool
  localTracks : List Bool
  remoteTracks : List Bool
  pcRef : Option Bool
  activeSession : Option Nat
  inCall : Bool
  target : Option Nat
deriving DecidableEq, Repr

/-- Number of endCall messages in an emission list. -/
def endMsgCount : List Emission → Nat
  | [] => 0
  | Emission.endCallMsg :: rest => 1 + endMsgCount rest
  | _ :: rest => endMsgCount rest

/-- endCall invoked through a closure of the CURRENT render, the case of
a local hangup: the hang-up control is rendered with the latest state,
so its endCall closure sees the live localStream, remoteStream,
activeCallSession, inCall and selection (Dashboard.jsx lines 1351-1405).
stopAll kills any ringtone/ringback loop (playDisconnect is a one-shot
cue, not a loop); every local and remote track is stopped; the peer
connection, if held, is closed and the reference cleared;
leaveCallSession is emitted when a session is active and endCall is
emitted when inCall with a selected target; finally the call state is
reset.  Returns the new resource state and the emissions, computed from
the pre-reset state as in the code. -/
def endCall (s : CallRes) : CallRes × List Emission :=
  ({ ringLoop := false,
     localTracks := s.localTracks.map (fun _ => false),
     remoteTracks := s.remoteTracks.map (fun _ => false),
     pcRef := none,
     activeSession := none,
     inCall := false,
     target := s.target },
   (match s.activeSession with
    | some sid => [Emission.leaveSession sid]
    | none => []) ++
   (if s.inCall ∧ s.target.isSome then [Emission.endCallMsg] else []))

/-- endCall invoked through a STALE pre-call closure.  The callEnded
handler is registered in an effect whose dependency array is
[selectedUser] (Dashboard.jsx line 1703), so it captures the endCall of
the render in which the peer was selected — before the call began; the
pc.oniceconnectionstatechange closure (lines 971-983) is likewise
created inside startCall/answerCall before the setLocalStream/setInCall
updates commit.  In that closure localStream, remoteStream and
activeCallSession are null and inCall is false.  Acting on the real
resource state: stopAll still silences the singleton sound player and
peerConnectionRef is a ref, so the held peer connection is closed and
the reference cleared, and the state setters reset the current inCall
and activeCallSession; but the null captured streams mean no media track
is stopped, and the false captured inCall and null captured
activeCallSession mean nothing is emitted to the other party. -/
def endCallStale (s : CallRes) : CallRes × List Emission :=
  ({ ringLoop := false,
     localTracks := s.localTracks,
     remoteTracks := s.remoteTracks,
     pcRef := none,
     activeSession := none,
     inCall := false,
     target := s.target }, [])

/-- The three teardown triggers: a local hangup, the remote callEnded
signal (handler at Dashboard.jsx lines 1691-1694), and a terminal
iceConnectionState (disconnected or failed) observed on the peer
connection (lines 981-983). -/
inductive EndTrigger where
  | localHangup
  | remoteEnded
  | connTerminal
deriving DecidableEq, Repr

/-- Which endCall instance each trigger actually invokes: the local
hang-up control calls the current render's endCall; the callEnded
handler and the connectivity-state handler call the stale pre-call
closure described at endCallStale. -/
def endWith : EndTrigger → CallRes → CallRes × List Emission
  | EndTrigger.localHangup => endCall
  | EndTrigger.remoteEnded => endCallStale
  | EndTrigger.connTerminal => endCallStale

end Teardown

namespace Ice

/-- The local peer connection as far as candidate handling is
concerned: the candidates applied to it so far. -/
structure PC where
  candidates : List Nat
deriving DecidableEq, Repr

/-- The state touched by the iceCandidate handler: the peer-connection
reference (none when no peer connection exists). -/
structure IceSt where
  pc : Option PC
deriving DecidableEq, Repr

/-- The iceCandidate handler (Dashboard.jsx lines 1675-1688): if a peer
connection exists, the candidate is applied to it; otherwise nothing at
all happens — no queueing, no error, no state change. -/
def handleIceCandidate (s : IceSt) (c : Nat) : IceSt :=
  match s.pc with
  | none => s
  | some pc => { pc := some { candidates := pc.candidates ++ [c] } }

end Ice

namespace Transport

theorem cmRun_append (s : CM) (es fs : List CMEvent) :
    cmRun s (es ++ fs) = cmRun (cmRun s es) fs := by
  simp [cmRun, List.foldl_append]

/-- Once the full-duplex flag is cleared it is never set again: no event
assigns true to useWebSocket. -/
theorem useWebSocket_mono (s : CM) (e : CMEvent) (h : s.useWebSocket = false) :
    (cmStep s e).useWebSocket = false := by
  cases e <;> simp [cmStep, cmConnect, h]

theorem useWebSocket_mono_run (s : CM) (es : List CMEvent) (h : s.useWebSocket = false) :
    (cmRun s es).useWebSocket = false := by
  induction es generalizing s with
  | nil => simpa [cmRun] using h
  | cons e es ih =>
    have h1 := useWebSocket_mono s e h
    simpa [cmRun] using ih (cmStep s e) h1

/-- A connect_error step either clears the full-duplex flag or leaves it
unchanged while incrementing the attempt counter. -/
theorem cmStep_error (s : CM) :
    (cmStep s CMEvent.connectError).useWebSocket = false ∨
    ((cmStep s CMEvent.connectError).useWebSocket = s.useWebSocket ∧
     (cmStep s CMEvent.connectError).attemptCount = s.attemptCount + 1) := by
  by_cases hws : s.useWebSocket = true
  · by_cases h3 : 3 ≤ s.attemptCount + 1
    · left
      simp [cmStep, cmConnect, hws, h3]
    · right
      simp [cmStep, cmConnect, hws, h3]
  · left
    simp only [Bool.not_eq_true] at hws
    simp [cmStep, cmConnect, hws]

end Transport

namespace Conn

theorem winit_WInv : WInv winit := by
  constructor
  · intro i h
    simp [winit] at h
  · intro i h
    simp [winit] at h

theorem cleanup_WInv (w : World) (h : WInv w) : WInv (cleanup w) := by
  obtain ⟨h1, h2⟩ := h
  unfold cleanup stopHeartbeat
  cases hc : w.current with
  | none =>
    refine ⟨fun i hi => ?_, fun i hi => ?_⟩
    · exact absurd (h1 i hi) (by simp [hc])
    · simp at hi
  | some j =>
    refine ⟨fun i hi => ?_, fun i hi => ?_⟩
    · simp only [setLive] at hi
      by_cases hij : i = j
      · simp [hij] at hi
      · simp only [if_neg hij] at hi
        have := h1 i hi
        rw [hc] at this
        exact absurd (Option.some_injective _ this.symm) hij
    · simp at hi

theorem cleanup_live_false (w : World) (h : WInv w) (i : Nat) :
    (cleanup w).live i = false := by
  have hinv := cleanup_WInv w h
  cases hl : (cleanup w).live i with
  | false => rfl
  | true =>
    have := hinv.1 i hl
    unfold cleanup stopHeartbeat at this
    cases hc : w.current <;> simp [hc] at this

theorem connect_WInv (w : World) (h : WInv w) : WInv (connect w) := by
  have key : ∀ w1 : World, (∀ i, w1.live i = false) →
      WInv { live := setLive w1.live w1.nextId true, nextId := w1.nextId + 1,
             current := some w1.nextId, heartbeat := w1.heartbeat,
             isConnected := w1.isConnected } := by
    intro w1 hall
    refine ⟨fun i hi => ?_, fun i hi => ?_⟩
    · simp only [setLive] at hi
      by_cases hij : i = w1.nextId
      · simp [hij]
      · rw [if_neg hij, hall i] at hi
        exact absurd hi (by simp)
    · have hni : w1.nextId = i := by simpa using hi
      show i < w1.nextId + 1
      omega
  unfold connect
  cases hc : w.current with
  | none =>
    simp only [hc, Option.isSome_none, Bool.false_eq_true, if_false]
    exact key w (fun i => by
      cases hl : w.live i with
      | false => rfl
      | true => exact absurd (h.1 i hl) (by simp [hc]))
  | some j =>
    simp only [hc, Option.isSome_some, if_true]
    exact key (cleanup w) (cleanup_live_false w h)

theorem step_WInv (w : World) (o : Op) (h : WInv w) : WInv (step w o) := by
  cases o with
  | connectCall => exact connect_WInv w h
  | cleanupCall => exact cleanup_WInv w h
  | disconnectEv =>
    unfold step
    cases hc : w.current with
    | none => exact h
    | some j =>
      refine ⟨fun i hi => ?_, fun i hi => ?_⟩
      · simp only [setLive] at hi
        by_cases hij : i = j
        · simp [hij] at hi
        · simp only [if_neg hij] at hi
          simpa [hc] using h.1 i hi
      · simp only at hi
        exact h.2 i (by rw [hc]; exact hi)
  | connectEv =>
    unfold step
    cases hc : w.current with
    | none => exact h
    | some j =>
      refine ⟨fun i hi => ?_, fun i hi => ?_⟩
      · simp only [setLive] at hi
        by_cases hij : i = j
        · simp [hij, hc]
        · simp only [if_neg hij] at hi
          simpa [hc] using h.1 i hi
      · simp only at hi
        exact h.2 i (by rw [hc]; exact hi)

theorem run_WInv (ops : List Op) : WInv (run winit ops) := by
  suffices h : ∀ (w : World), WInv w → WInv (run w ops) from h winit winit_WInv
  induction ops with
  | nil => intro w h; simpa [run] using h
  | cons o ops ih =>
    intro w h
    simpa [run] using ih (step w o) (step_WInv w o h)

end Conn

namespace Registry

theorem pcount_append (p : Pair) (l1 l2 : List Pair) :
    pcount p (l1 ++ l2) = pcount p l1 + pcount p l2 := by
  induction l1 with
  | nil => simp [pcount]
  | cons q rest ih => simp [pcount, ih]; omega

theorem pcount_eq_zero_of_not_mem (p : Pair) (l : List Pair) (h : p ∉ l) :
    pcount p l = 0 := by
  induction l with
  | nil => rfl
  | cons q rest ih =>
    have hq : q ≠ p := fun hqp => h (by simp [hqp])
    have hr : p ∉ rest := fun hm => h (by simp [hm])
    simp [pcount, hq, ih hr]

theorem pcount_nodup (l : List Pair) (h : l.Nodup) (p : Pair) :
    pcount p l = if p ∈ l then 1 else 0 := by
  induction l with
  | nil => simp [pcount]
  | cons q rest ih =>
    rw [List.nodup_cons] at h
    by_cases hqp : q = p
    · subst hqp
      simp [pcount, pcount_eq_zero_of_not_mem q rest h.1]
    · have hmem : (p ∈ q :: rest) ↔ (p ∈ rest) := by
        constructor
        · intro h1
          rcases List.mem_cons.mp h1 with h2 | h2
          · exact absurd h2.symm hqp
          · exact h2
        · intro h1
          exact List.mem_cons_of_mem q h1
      simp [pcount, hqp, ih h.2, hmem]

theorem regInit_RInv : RInv regInit := by
  refine ⟨List.nodup_nil, fun att h => ?_⟩
  simp [regInit] at h

/-- The registry never acquires duplicates, whatever the operations. -/
theorem registry_nodup (s : SM) (ops : List RegOp) (h : s.registry.Nodup) :
    (regRun s ops).registry.Nodup := by
  induction ops generalizing s with
  | nil => simpa [regRun] using h
  | cons o ops ih =>
    have hstep : (regStep s o).registry.Nodup := by
      cases o with
      | onCall p =>
        by_cases hm : p ∈ s.registry
        · simpa [regStep, smOn, hm] using h
        · show (smOn s p).registry.Nodup
          simp only [smOn, if_neg hm]
          rw [List.nodup_append]
          exact ⟨h, List.nodup_singleton p, by simpa [List.disjoint_singleton] using hm⟩
      | connectCall => simpa [regStep, smConnect] using h
    simpa [regRun] using ih (regStep s o) hstep

theorem smConnect_RInv (s : SM) (h : s.registry.Nodup) : RInv (smConnect s) := by
  refine ⟨h, fun att hatt p => ?_⟩
  simp only [smConnect] at hatt ⊢
  obtain rfl : s.registry = att := by simpa using hatt
  exact pcount_nodup _ h p

theorem smOn_RInv (s : SM) (p : Pair) (h : RInv s)
    (hok : ¬(s.socketAttached.isSome = true ∧ p ∈ s.registry)) : RInv (smOn s p) := by
  obtain ⟨hnd, hatt⟩ := h
  by_cases hm : p ∈ s.registry
  · have hnone : s.socketAttached = none := by
      cases hso : s.socketAttached with
      | none => rfl
      | some att => exact absurd ⟨by rw [hso]; rfl, hm⟩ hok
    refine ⟨by simpa [smOn, hm] using hnd, fun att hso q => ?_⟩
    simp [smOn, hnone] at hso
  · have hnd2 : (s.registry ++ [p]).Nodup := by
      rw [List.nodup_append]
      exact ⟨hnd, List.nodup_singleton p, by simpa [List.disjoint_singleton] using hm⟩
    refine ⟨by simpa [smOn, hm] using hnd2, fun att hso q => ?_⟩
    simp only [smOn, hm, if_neg] at hso ⊢
    cases hprev : s.socketAttached with
    | none => simp [hprev] at hso
    | some att0 =>
      simp only [hprev, Option.map_some] at hso
      obtain rfl : att0 ++ [p] = att := by simpa using hso
      rw [pcount_append, hatt att0 hprev q]
      by_cases hqp : q = p
      · subst hqp
        simp [pcount, hm]
      · have hp0 : pcount q [p] = 0 :=
          pcount_eq_zero_of_not_mem q [p] (by simp [hqp])
        have hmem : (q ∈ s.registry ++ [p]) ↔ (q ∈ s.registry) := by
          simp [List.mem_append, hqp]
        rw [hp0]
        by_cases hqr : q ∈ s.registry
        · have hq2 : q ∈ s.registry ++ [p] := hmem.mpr hqr
          simp [hqr, hq2]
        · have hq2 : q ∉ s.registry ++ [p] := fun hx => hqr (hmem.mp hx)
          simp [hqr, hq2]

/-- The registry invariant is preserved along any clean operation
sequence. -/
theorem okFrom_RInv (ops : List RegOp) :
    ∀ s : SM, RInv s → okFrom s ops = true → RInv (regRun s ops) := by
  induction ops with
  | nil => intro s h _; simpa [regRun] using h
  | cons o rest ih =>
    intro s h hok
    cases o with
    | onCall p =>
      rw [okFrom, Bool.and_eq_true] at hok
      obtain ⟨hclean, hrest⟩ := hok
      rw [Bool.not_eq_eq_eq_not, Bool.not_true, Bool.and_eq_false_iff] at hclean
      have hcond : ¬(s.socketAttached.isSome = true ∧ p ∈ s.registry) := by
        rintro ⟨h1, h2⟩
        rcases hclean with h3 | h3
        · rw [h1] at h3; exact absurd h3 (by simp)
        · rw [decide_eq_true h2] at h3; exact absurd h3 (by simp)
      have hinv2 : RInv (smOn s p) := smOn_RInv s p h hcond
      have : regRun s (RegOp.onCall p :: rest) = regRun (smOn s p) rest := rfl
      rw [this]
      exact ih (smOn s p) hinv2 hrest
    | connectCall =>
      rw [okFrom] at hok
      have hinv2 : RInv (smConnect s) := smConnect_RInv s h.1
      have : regRun s (RegOp.connectCall :: rest) = regRun (smConnect s) rest := rfl
      rw [this]
      exact ih (smConnect s) hinv2 hok

end Registry

namespace Reconcile

/-- Finding the optimistic record: a scan over records none of which
match, followed by the matching one, locates exactly the appended
index. -/
theorem findIdx_no_match_append (base : List MsgRec) (opt : MsgRec) (t : Nat)
    (h : ∀ m ∈ base, m.rid ≠ t) (ho : opt.rid = t) :
    (base ++ [opt]).findIdx? (fun m => m.rid = t) = some base.length := by
  induction base with
  | nil => simp [List.findIdx?_cons, ho]
  | cons m rest ih =>
    have hm : m.rid ≠ t := h m (List.mem_cons_self m rest)
    have hr := ih (fun x hx => h x (List.mem_cons_of_mem m hx))
    simp [List.findIdx?_cons, hm, hr]

theorem receiveReconcile_replaces (base : List MsgRec) (opt srv : MsgRec)
    (h1 : ∀ m ∈ base, m.rid ≠ srv.rid) (hopt : opt.rid ≠ srv.rid)
    (htmp : srv.tempId = some opt.rid) (h2 : ∀ m ∈ base, m.rid ≠ opt.rid) :
    receiveReconcile srv (base ++ [opt]) = base ++ [srv] := by
  have hany : (base ++ [opt]).any (fun m => m.rid = srv.rid) = false := by
    rw [List.any_eq_false]
    intro x hx
    rcases List.mem_append.mp hx with hxb | hxo
    · simp [h1 x hxb]
    · have : x = opt := by simpa using hxo
      simp [this, hopt]
  have hidx := findIdx_no_match_append base opt opt.rid h2 rfl
  simp only [receiveReconcile, hany, Bool.false_eq_true, if_false, htmp, hidx]
  simp

/-- A list of records none of which carries the given id contributes
zero to the id count. -/
theorem ncount_map_zero (l : List MsgRec) (n : Nat) (h : ∀ m ∈ l, m.rid ≠ n) :
    GroupOffer.ncount n (l.map MsgRec.rid) = 0 := by
  induction l with
  | nil => rfl
  | cons m rest ih =>
    have hm := h m (List.mem_cons_self m rest)
    have hr := ih (fun x hx => h x (List.mem_cons_of_mem m hx))
    simp [GroupOffer.ncount, hm, hr]

end Reconcile

namespace StatusUpd

/-- Mapping the status-update function over records none of which match
the key is the identity. -/
theorem map_unmatched (k : Nat) (st : MsgStatus) (msgs : List MsgRec)
    (hall : ∀ m ∈ msgs, matchesKey m k = false) :
    msgs.map (fun m => if matchesKey m k then { m with status := st } else m) = msgs := by
  induction msgs with
  | nil => rfl
  | cons m rest ih =>
    have hm := hall m (List.mem_cons_self m rest)
    have hr := ih (fun x hx => hall x (List.mem_cons_of_mem m hx))
    simp [hm, hr]

end StatusUpd

namespace GroupOffer

theorem ncount_append (n : Nat) (l1 l2 : List Nat) :
    ncount n (l1 ++ l2) = ncount n l1 + ncount n l2 := by
  induction l1 with
  | nil => simp [ncount]
  | cons m rest ih => simp [ncount, ih]; omega

theorem handleAckSeq_GInv (s : GS) (a : Ack) (h : GInv s) : GInv (handleAckSeq s a) := by
  obtain ⟨hp, hcnt⟩ := h
  cases hsid : a.sid with
  | none =>
    have : handleAckSeq s a = s := by
      simp [handleAckSeq, arrive, hsid, complete, hp]
    rw [this]; exact ⟨hp, hcnt⟩
  | some sid =>
    by_cases hinit : a.otherInitiator = true
    · have : handleAckSeq s a = s := by
        simp [handleAckSeq, arrive, hsid, hinit, complete, hp]
      rw [this]; exact ⟨hp, hcnt⟩
    · have hinit2 : a.otherInitiator = false := by
        cases hb : a.otherInitiator
        · rfl
        · exact absurd hb hinit
      by_cases hdup : sid ∈ s.dedupe
      · have : handleAckSeq s a = s := by
          simp [handleAckSeq, arrive, hsid, hinit2, hdup, complete, hp]
        rw [this]; exact ⟨hp, hcnt⟩
      · have harr : arrive s a = { s with pending := s.pending ++ [(sid, a.offerOk)] } := by
          simp [arrive, hsid, hinit2, hdup]
        cases hok : a.offerOk with
        | false =>
          have : handleAckSeq s a = { s with pending := [] } := by
            simp [handleAckSeq, harr, hp, complete, hok, List.eraseIdx]
          rw [this]
          exact ⟨rfl, hcnt⟩
        | true =>
          have : handleAckSeq s a =
              { dedupe := sid :: s.dedupe, offers := s.offers ++ [sid], pending := [] } := by
            simp [handleAckSeq, harr, hp, complete, hok, List.eraseIdx]
          rw [this]
          refine ⟨rfl, fun q => ?_⟩
          obtain ⟨hz, ho⟩ := hcnt q
          have hsid1 : ncount q (s.offers ++ [sid]) =
              ncount q s.offers + (if sid = q then 1 else 0) := by
            rw [ncount_append]; simp [ncount]
          constructor
          · intro hq
            have hq1 : q ≠ sid := fun h => hq (by rw [h]; exact List.mem_cons_self sid s.dedupe)
            have hq2 : q ∉ s.dedupe := fun h => hq (List.mem_cons_of_mem sid h)
            rw [hsid1, hz hq2, if_neg (fun h => hq1 h.symm)]
          · rw [hsid1]
            by_cases hqs : q = sid
            · subst hqs
              rw [hz hdup]
              simp
            · rw [if_neg (fun h => hqs h.symm)]
              omega

theorem seqRun_GInv (acks : List Ack) : GInv (seqRun acks) := by
  suffices h : ∀ s : GS, GInv s → GInv (acks.foldl handleAckSeq s) by
    exact h gInit ⟨rfl, fun sid => ⟨fun _ => rfl, by simp [ncount, gInit]⟩⟩
  induction acks with
  | nil => intro s h; simpa using h
  | cons a acks ih =>
    intro s h
    simpa using ih (handleAckSeq s a) (handleAckSeq_GInv s a h)

end GroupOffer

namespace Delivery

/-- Once every listener is deregistered and the timer disarmed, every
further event is a no-op. -/
theorem dStep_frozen (s : DS) (e : DEv) (h1 : s.delReg = false)
    (h2 : s.unReg = false) (h3 : s.timerArmed = false) : dStep s e = s := by
  cases e with
  | delivered t => simp [dStep, h1]
  | unavailable t => simp [dStep, h2]
  | timerFire => simp [dStep, h3]

theorem dRun_frozen (s : DS) (es : List DEv) (h1 : s.delReg = false)
    (h2 : s.unReg = false) (h3 : s.timerArmed = false) : dRun s es = s := by
  induction es with
  | nil => rfl
  | cons e es ih =>
    show dRun (dStep s e) es = s
    rw [dStep_frozen s e h1 h2 h3]
    exact ih

/-- Every state reachable from the armed race state is one of: still
armed, delivered-handled, unavailable-handled, timed out. -/
theorem dReach (t : Nat) (es : List DEv) :
    dRun (dInit t) es = dInit t ∨ dRun (dInit t) es = delState t ∨
    dRun (dInit t) es = unState t ∨ dRun (dInit t) es = firedState t := by
  induction es using List.reverseRecOn with
  | nil => left; rfl
  | append_singleton es e ih =>
    have happ : dRun (dInit t) (es ++ [e]) = dStep (dRun (dInit t) es) e := by
      simp [dRun, List.foldl_append]
    rcases ih with h | h | h | h
    · rw [happ, h]
      cases e with
      | delivered u =>
        by_cases hu : u = t
        · right; left; simp [dStep, dInit, hu, delState]
        · left; simp [dStep, dInit, hu]
      | unavailable u =>
        by_cases hu : u = t
        · right; right; left; simp [dStep, dInit, hu, unState]
        · left; simp [dStep, dInit, hu]
      | timerFire =>
        right; right; right; simp [dStep, dInit, firedState]
    · rw [happ, h, dStep_frozen _ _ rfl rfl rfl]; right; left; rfl
    · rw [happ, h, dStep_frozen _ _ rfl rfl rfl]; right; right; left; rfl
    · rw [happ, h, dStep_frozen _ _ rfl rfl rfl]; right; right; right; rfl

theorem dRun_append (s : DS) (l1 l2 : List DEv) :
    dRun s (l1 ++ l2) = dRun (dRun s l1) l2 := by
  simp [dRun, List.foldl_append]

/-- With no addressed signal, the race is either still armed or has
timed out. -/
theorem dReach_noAddr (t : Nat) (es : List DEv)
    (hna : ∀ e ∈ es, addressed t e = false) :
    dRun (dInit t) es = dInit t ∨ dRun (dInit t) es = firedState t := by
  induction es using List.reverseRecOn with
  | nil => left; rfl
  | append_singleton es e ih =>
    have h1 := ih (fun x hx => hna x (by simp [hx]))
    have he := hna e (by simp)
    have happ : dRun (dInit t) (es ++ [e]) = dStep (dRun (dInit t) es) e := by
      simp [dRun, List.foldl_append]
    rcases h1 with h | h
    · rw [happ, h]
      cases e with
      | delivered u =>
        have hu : ¬(u = t) := by simpa [addressed] using he
        left; simp [dStep, dInit, hu]
      | unavailable u =>
        have hu : ¬(u = t) := by simpa [addressed] using he
        left; simp [dStep, dInit, hu]
      | timerFire =>
        right; simp [dStep, dInit, firedState]
    · rw [happ, h, dStep_frozen _ _ rfl rfl rfl]
      right; rfl

end Delivery

/-- C1 counterexample: the dedupe check (Dashboard.jsx line 1725) and
the recording of the session id (line 1777) are separated by awaits, so
two duplicate acknowledgements for session 5 dispatched before the first
handler resumes both pass the check and two offers are emitted for the
same session. -/
theorem claim_C1_counterexample :
    GroupOffer.ncount 5 (GroupOffer.gRun GroupOffer.gInit
      [GroupOffer.GEv.ackEv ⟨some 5, false, true⟩,
       GroupOffer.GEv.ackEv ⟨some 5, false, true⟩,
       GroupOffer.GEv.finish 0, GroupOffer.GEv.finish 0]).offers = 2 := by
  decide

/-- C1 (amended): provided each participantJoinedAck handler runs to
completion (through its asynchronous offer creation) before the next
acknowledgement is dispatched, at most one offer is ever sent per
session id, however many duplicate acknowledgements arrive; and an
acknowledgement for a session already in the dedupe set sends nothing
(Dashboard.jsx handleParticipantAck, lines 1709-1785). -/
theorem claim_C1 :
    (∀ (acks : List GroupOffer.Ack) (sid : Nat),
      GroupOffer.ncount sid (GroupOffer.seqRun acks).offers ≤ 1) ∧
    (∀ (acks : List GroupOffer.Ack) (a : GroupOffer.Ack) (sid : Nat),
      a.sid = some sid → sid ∈ (GroupOffer.seqRun acks).dedupe →
      (GroupOffer.seqRun (acks ++ [a])).offers = (GroupOffer.seqRun acks).offers) := by
  constructor
  · intro acks sid
    exact ((GroupOffer.seqRun_GInv acks).2 sid).2
  · intro acks a sid hsid hdup
    have hfold : GroupOffer.seqRun (acks ++ [a]) =
        GroupOffer.handleAckSeq (GroupOffer.seqRun acks) a := by
      simp [GroupOffer.seqRun, List.foldl_append]
    have hp := (GroupOffer.seqRun_GInv acks).1
    rw [hfold]
    cases hinit : a.otherInitiator with
    | true =>
      simp [GroupOffer.handleAckSeq, GroupOffer.arrive, hsid, hinit,
        GroupOffer.complete, hp]
    | false =>
      simp [GroupOffer.handleAckSeq, GroupOffer.arrive, hsid, hinit, hdup,
        GroupOffer.complete, hp]

/-- Witness for claim C1 at concrete acknowledgement lists. -/
theorem claim_C1_witness :
    GroupOffer.ncount 5
      (GroupOffer.seqRun [⟨some 5, false, true⟩]).offers ≤ 1 ∧
    ((⟨some 5, false, true⟩ : GroupOffer.Ack).sid = some 5 ∧
      5 ∈ (GroupOffer.seqRun [⟨some 5, false, true⟩]).dedupe ∧
      (GroupOffer.seqRun ([⟨some 5, false, true⟩] ++ [⟨some 5, false, true⟩])).offers =
        (GroupOffer.seqRun [⟨some 5, false, true⟩]).offers) :=
  ⟨claim_C1.1 _ 5, rfl, by decide,
   claim_C1.2 [⟨some 5, false, true⟩] ⟨some 5, false, true⟩ 5 rfl (by decide)⟩

/-- C2: for an outgoing one-to-one call, if no delivery ack and no
unavailability signal addressed to the called user arrives before the
5000 ms timer fires, the attempt ends in the failed-timeout outcome; if
an addressed signal arrives while no timeout has occurred, the timer is
disarmed and no timeout outcome ever occurs afterwards; and on every
path each temporary listener is deregistered exactly once (zero times
while still registered, once as soon as any path fires)
(Dashboard.jsx startCall, lines 1091-1153). -/
theorem claim_C2 :
    (∀ (t : Nat) (es : List Delivery.DEv),
      (∀ e ∈ es, Delivery.addressed t e = false) →
      (Delivery.dRun (Delivery.dInit t)
        (es ++ [Delivery.DEv.timerFire])).failedTimeout = true) ∧
    (∀ (t : Nat) (pre : List Delivery.DEv) (e : Delivery.DEv)
        (suf : List Delivery.DEv),
      Delivery.addressed t e = true →
      (Delivery.dRun (Delivery.dInit t) pre).failedTimeout = false →
      (Delivery.dRun (Delivery.dInit t) (pre ++ e :: suf)).failedTimeout = false ∧
      (Delivery.dRun (Delivery.dInit t) (pre ++ [e])).timerArmed = false) ∧
    (∀ (t : Nat) (es : List Delivery.DEv),
      (Delivery.dRun (Delivery.dInit t) es).offDel =
        (if (Delivery.dRun (Delivery.dInit t) es).delReg then 0 else 1) ∧
      (Delivery.dRun (Delivery.dInit t) es).offUn =
        (if (Delivery.dRun (Delivery.dInit t) es).unReg then 0 else 1)) := by
  refine ⟨?_, ?_, ?_⟩
  · intro t es hna
    have happ : Delivery.dRun (Delivery.dInit t) (es ++ [Delivery.DEv.timerFire]) =
        Delivery.dStep (Delivery.dRun (Delivery.dInit t) es) Delivery.DEv.timerFire := by
      simp [Delivery.dRun, List.foldl_append]
    rcases Delivery.dReach_noAddr t es hna with h | h
    · rw [happ, h]
      simp [Delivery.dStep, Delivery.dInit]
    · rw [happ, h, Delivery.dStep_frozen _ _ rfl rfl rfl]
      rfl
  · intro t pre e suf haddr hft
    have hsplit : pre ++ e :: suf = (pre ++ [e]) ++ suf := by simp
    have happ1 : Delivery.dRun (Delivery.dInit t) (pre ++ [e]) =
        Delivery.dStep (Delivery.dRun (Delivery.dInit t) pre) e := by
      simp [Delivery.dRun, List.foldl_append]
    have hterm : Delivery.dRun (Delivery.dInit t) (pre ++ [e]) = Delivery.delState t ∨
        Delivery.dRun (Delivery.dInit t) (pre ++ [e]) = Delivery.unState t := by
      rcases Delivery.dReach t pre with h | h | h | h
      · rw [happ1, h]
        cases e with
        | delivered u =>
          have hu : u = t := by simpa [Delivery.addressed] using haddr
          left; simp [Delivery.dStep, Delivery.dInit, hu, Delivery.delState]
        | unavailable u =>
          have hu : u = t := by simpa [Delivery.addressed] using haddr
          right; simp [Delivery.dStep, Delivery.dInit, hu, Delivery.unState]
        | timerFire => simp [Delivery.addressed] at haddr
      · left; rw [happ1, h, Delivery.dStep_frozen _ _ rfl rfl rfl]
      · right; rw [happ1, h, Delivery.dStep_frozen _ _ rfl rfl rfl]
      · rw [h] at hft
        simp [Delivery.firedState] at hft
    have hrun : Delivery.dRun (Delivery.dInit t) (pre ++ e :: suf) =
        Delivery.dRun (Delivery.dRun (Delivery.dInit t) (pre ++ [e])) suf := by
      rw [hsplit, Delivery.dRun_append]
    rcases hterm with h | h
    · refine ⟨?_, by rw [h]; rfl⟩
      rw [hrun, h, Delivery.dRun_frozen _ _ rfl rfl rfl]
      rfl
    · refine ⟨?_, by rw [h]; rfl⟩
      rw [hrun, h, Delivery.dRun_frozen _ _ rfl rfl rfl]
      rfl
  · intro t es
    rcases Delivery.dReach t es with h | h | h | h <;> rw [h] <;>
      exact ⟨by rfl, by rfl⟩

/-- Witness for claim C2 at concrete event traces. -/
theorem claim_C2_witness :
    (Delivery.dRun (Delivery.dInit 0)
      ([Delivery.DEv.delivered 1] ++ [Delivery.DEv.timerFire])).failedTimeout = true ∧
    ((Delivery.dRun (Delivery.dInit 0)
        ([] ++ Delivery.DEv.delivered 0 :: [Delivery.DEv.timerFire])).failedTimeout = false ∧
      (Delivery.dRun (Delivery.dInit 0) ([] ++ [Delivery.DEv.delivered 0])).timerArmed = false) ∧
    ((Delivery.dRun (Delivery.dInit 0) [Delivery.DEv.unavailable 0]).offDel =
      (if (Delivery.dRun (Delivery.dInit 0) [Delivery.DEv.unavailable 0]).delReg
        then 0 else 1)) :=
  ⟨claim_C2.1 0 [Delivery.DEv.delivered 1] (by decide),
   claim_C2.2.1 0 [] (Delivery.DEv.delivered 0) [Delivery.DEv.timerFire]
     (by decide) (by decide),
   (claim_C2.2.2 0 [Delivery.DEv.unavailable 0]).1⟩

/-- C3: for a locally sent message whose direct response and
server-pushed confirmation (sharing the correlation token) both
eventually arrive, in either order, the optimistic record is reconciled
in place by exactly one path and no duplicate is inserted: the final
list is the base list plus exactly one record carrying the persisted id
and none carrying the temporary id (Dashboard.jsx sendMessage lines
847-934 and the receiveMessage handler lines 369-392). -/
theorem claim_C3 :
    ∀ (o : Reconcile.ArrivalOrder) (base : List MsgRec) (tok sid : Nat) (st : MsgStatus),
      (∀ m ∈ base, m.rid ≠ sid) → (∀ m ∈ base, m.rid ≠ tok) → sid ≠ tok →
      Reconcile.runBoth o base ⟨tok, some tok, MsgStatus.queued⟩ ⟨sid, some tok, st⟩ =
        base ++ [⟨sid, some tok, st⟩] ∧
      GroupOffer.ncount sid ((Reconcile.runBoth o base ⟨tok, some tok, MsgStatus.queued⟩
        ⟨sid, some tok, st⟩).map MsgRec.rid) = 1 ∧
      GroupOffer.ncount tok ((Reconcile.runBoth o base ⟨tok, some tok, MsgStatus.queued⟩
        ⟨sid, some tok, st⟩).map MsgRec.rid) = 0 := by
  intro o base tok sid st h1 h2 hne
  have hmain : Reconcile.runBoth o base ⟨tok, some tok, MsgStatus.queued⟩
      ⟨sid, some tok, st⟩ = base ++ [⟨sid, some tok, st⟩] := by
    have hrepl := Reconcile.receiveReconcile_replaces base
      ⟨tok, some tok, MsgStatus.queued⟩ ⟨sid, some tok, st⟩
      h1 (fun h => hne h.symm) rfl h2
    cases o with
    | socketFirst => exact hrepl
    | apiFirst => exact hrepl
  refine ⟨hmain, ?_, ?_⟩
  · rw [hmain, List.map_append, GroupOffer.ncount_append,
      Reconcile.ncount_map_zero base sid h1]
    simp [GroupOffer.ncount]
  · rw [hmain, List.map_append, GroupOffer.ncount_append,
      Reconcile.ncount_map_zero base tok h2]
    simp [GroupOffer.ncount, hne]

/-- Witness for claim C3 at a concrete message exchange. -/
theorem claim_C3_witness :
    Reconcile.runBoth Reconcile.ArrivalOrder.apiFirst [⟨9, none, MsgStatus.seen⟩]
      ⟨1, some 1, MsgStatus.queued⟩ ⟨2, some 1, MsgStatus.sent⟩ =
      [⟨9, none, MsgStatus.seen⟩] ++ [⟨2, some 1, MsgStatus.sent⟩] ∧
    GroupOffer.ncount 2 ((Reconcile.runBoth Reconcile.ArrivalOrder.apiFirst
      [⟨9, none, MsgStatus.seen⟩] ⟨1, some 1, MsgStatus.queued⟩
      ⟨2, some 1, MsgStatus.sent⟩).map MsgRec.rid) = 1 ∧
    GroupOffer.ncount 1 ((Reconcile.runBoth Reconcile.ArrivalOrder.apiFirst
      [⟨9, none, MsgStatus.seen⟩] ⟨1, some 1, MsgStatus.queued⟩
      ⟨2, some 1, MsgStatus.sent⟩).map MsgRec.rid) = 0 :=
  claim_C3 Reconcile.ArrivalOrder.apiFirst [⟨9, none, MsgStatus.seen⟩] 1 2
    MsgStatus.sent (by decide) (by decide) (by decide)

/-- C4 counterexample: registering the same (event, handler) pair a
second time while a socket is live attaches it twice on the socket
(SocketManager.on stores into a Set, which dedupes, but calls
socket.on unconditionally; socketManager.js lines 162-178), refuting
"no handler attached twice". -/
theorem claim_C4_counterexample :
    ((0, 0) ∈ (Registry.regRun Registry.regInit
      [Registry.RegOp.connectCall, Registry.RegOp.onCall (0, 0),
       Registry.RegOp.onCall (0, 0)]).registry) ∧
    Registry.attachCount (Registry.regRun Registry.regInit
      [Registry.RegOp.connectCall, Registry.RegOp.onCall (0, 0),
       Registry.RegOp.onCall (0, 0)]) (0, 0) = 2 := by
  decide

/-- C4 (amended): for any clean sequence of registrations (no
on(event, handler) call repeating a pair already in the registry while a
socket exists), once a transport is live every registered handler is
attached exactly once and unregistered pairs are not attached; and after
any connect (in particular a reconnect) every handler in the registry is
attached exactly once on the new transport, unconditionally
(socketManager.js lines 37-68, 112-116, 162-178). -/
theorem claim_C4 :
    (∀ ops : List Registry.RegOp, Registry.okFrom Registry.regInit ops = true →
      ∀ p : Registry.Pair,
        Registry.attachCount (Registry.regRun Registry.regInit ops) p =
          if (Registry.regRun Registry.regInit ops).socketAttached.isSome = true ∧
             p ∈ (Registry.regRun Registry.regInit ops).registry then 1 else 0) ∧
    (∀ (ops : List Registry.RegOp) (p : Registry.Pair),
      p ∈ (Registry.regRun Registry.regInit ops).registry →
        Registry.attachCount (Registry.smConnect (Registry.regRun Registry.regInit ops)) p = 1) := by
  constructor
  · intro ops hok p
    have hinv := Registry.okFrom_RInv ops Registry.regInit Registry.regInit_RInv hok
    cases hso : (Registry.regRun Registry.regInit ops).socketAttached with
    | none =>
      simp [Registry.attachCount, hso]
    | some att =>
      have hcnt := hinv.2 att hso p
      simp only [Registry.attachCount, hso]
      rw [hcnt]
      by_cases hm : p ∈ (Registry.regRun Registry.regInit ops).registry
      · simp [hm, hso]
      · simp [hm, hso]
  · intro ops p hm
    have hnd : (Registry.regRun Registry.regInit ops).registry.Nodup :=
      Registry.registry_nodup Registry.regInit ops List.nodup_nil
    simp only [Registry.attachCount, Registry.smConnect]
    rw [Registry.pcount_nodup _ hnd p]
    simp [hm]

/-- Witness for claim C4 at concrete operation sequences. -/
theorem claim_C4_witness :
    (Registry.attachCount (Registry.regRun Registry.regInit
      [Registry.RegOp.onCall (0, 0), Registry.RegOp.connectCall,
       Registry.RegOp.onCall (1, 1)]) (0, 0) =
      if (Registry.regRun Registry.regInit
            [Registry.RegOp.onCall (0, 0), Registry.RegOp.connectCall,
             Registry.RegOp.onCall (1, 1)]).socketAttached.isSome = true ∧
         (0, 0) ∈ (Registry.regRun Registry.regInit
            [Registry.RegOp.onCall (0, 0), Registry.RegOp.connectCall,
             Registry.RegOp.onCall (1, 1)]).registry then 1 else 0) ∧
    Registry.attachCount (Registry.smConnect (Registry.regRun Registry.regInit
      [Registry.RegOp.onCall (0, 0)])) (0, 0) = 1 :=
  ⟨claim_C4.1 _ (by decide) _, claim_C4.2 [Registry.RegOp.onCall (0, 0)] (0, 0) (by decide)⟩

/-- C5: after 3 consecutive connect failures while the full-duplex
(websocket) transport is enabled, the manager switches to polling-only;
the flag is never set back, every subsequent connect builds a
polling-only transport list, and a successful connect resets the
consecutive-failure counter to zero (socketManager.js lines 42-44,
77-84, 94-103). -/
theorem claim_C5 :
    (∀ s : Transport.CM, s.useWebSocket = true →
      (Transport.cmRun s [Transport.CMEvent.connectError, Transport.CMEvent.connectError,
        Transport.CMEvent.connectError]).useWebSocket = false) ∧
    (∀ (s : Transport.CM) (es : List Transport.CMEvent), s.useWebSocket = false →
      (Transport.cmRun s es).useWebSocket = false) ∧
    (∀ s : Transport.CM, s.useWebSocket = false →
      (Transport.cmStep s Transport.CMEvent.connectCall).transports = [Transport.Kind.polling]) ∧
    (∀ s : Transport.CM,
      (Transport.cmStep s Transport.CMEvent.connectSuccess).attemptCount = 0) := by
  refine ⟨?_, ?_, ?_, ?_⟩
  · intro s hs
    have hrun : Transport.cmRun s [Transport.CMEvent.connectError, Transport.CMEvent.connectError,
        Transport.CMEvent.connectError] =
        Transport.cmStep (Transport.cmStep (Transport.cmStep s Transport.CMEvent.connectError)
          Transport.CMEvent.connectError) Transport.CMEvent.connectError := rfl
    rw [hrun]
    rcases Transport.cmStep_error s with h1 | ⟨h1, c1⟩
    · exact Transport.useWebSocket_mono _ _ (Transport.useWebSocket_mono _ _ h1)
    · rcases Transport.cmStep_error (Transport.cmStep s Transport.CMEvent.connectError) with
        h2 | ⟨h2, c2⟩
      · exact Transport.useWebSocket_mono _ _ h2
      · set t := Transport.cmStep (Transport.cmStep s Transport.CMEvent.connectError)
          Transport.CMEvent.connectError with ht
        have hws2 : t.useWebSocket = true := by rw [ht, h2, h1, hs]
        have hcnt : 3 ≤ t.attemptCount + 1 := by rw [ht, c2, c1]; omega
        show (Transport.cmStep t Transport.CMEvent.connectError).useWebSocket = false
        simp only [Transport.cmStep]
        rw [if_pos ⟨hcnt, hws2⟩]
        rfl
  · intro s es hs
    exact Transport.useWebSocket_mono_run s es hs
  · intro s hs
    simp [Transport.cmStep, Transport.cmConnect, Transport.transportsFor, hs]
  · intro s
    simp [Transport.cmStep]

/-- Witness for claim C5 at concrete states. -/
theorem claim_C5_witness :
    (Transport.cmRun ⟨true, 0, [Transport.Kind.polling, Transport.Kind.websocket]⟩
      [Transport.CMEvent.connectError, Transport.CMEvent.connectError,
       Transport.CMEvent.connectError]).useWebSocket = false ∧
    (Transport.cmRun ⟨false, 2, [Transport.Kind.polling]⟩
      [Transport.CMEvent.connectSuccess, Transport.CMEvent.connectCall]).useWebSocket = false ∧
    (Transport.cmStep ⟨false, 2, [Transport.Kind.polling]⟩
      Transport.CMEvent.connectCall).transports = [Transport.Kind.polling] ∧
    (Transport.cmStep ⟨false, 2, [Transport.Kind.polling]⟩
      Transport.CMEvent.connectSuccess).attemptCount = 0 :=
  ⟨claim_C5.1 _ rfl, claim_C5.2.1 _ _ rfl, claim_C5.2.2.1 _ rfl, claim_C5.2.2.2 _⟩

/-- C6 counterexample: a status update carrying both the authoritative
id 7 and the correlation token 100 leaves an unreconciled local record
(still identified by its token 100) untouched, because the handler keys
on the payload's messageId alone when present (Dashboard.jsx line 449);
the spec-modelled matcher, which falls back to the token when the
authoritative id is not yet known locally, would update it. -/
theorem claim_C6_counterexample :
    StatusUpd.handleStatusUpdate ⟨some 7, some 100, MsgStatus.sent⟩
      [⟨100, some 100, MsgStatus.queued⟩] = [⟨100, some 100, MsgStatus.queued⟩] ∧
    StatusUpd.claimStatusUpdate ⟨some 7, some 100, MsgStatus.sent⟩
      [⟨100, some 100, MsgStatus.queued⟩] = [⟨100, some 100, MsgStatus.sent⟩] := by
  decide

/-- C6 (amended): the handler keys on the payload's authoritative
identifier when present, otherwise on the payload's correlation token; a
record matches when either its identifier or its correlation token
equals that key; matched records get the new status, unmatched updates
change no record and raise no error, updates carrying neither identifier
are ignored, and no record is ever inserted or removed (Dashboard.jsx
messageStatusUpdate handler, lines 433-472). -/
theorem claim_C6 :
    (∀ (p : StatusUpd.UpdPayload) (msgs : List MsgRec),
      p.messageId = none → p.clientTempId = none →
      StatusUpd.handleStatusUpdate p msgs = msgs) ∧
    (∀ (p : StatusUpd.UpdPayload) (msgs : List MsgRec) (k : Nat),
      StatusUpd.keyOf p = some k →
      (∀ m ∈ msgs, StatusUpd.matchesKey m k = false) →
      StatusUpd.handleStatusUpdate p msgs = msgs) ∧
    (∀ (p : StatusUpd.UpdPayload) (msgs : List MsgRec) (k : Nat) (m : MsgRec),
      StatusUpd.keyOf p = some k → m ∈ msgs → StatusUpd.matchesKey m k = true →
      ({ m with status := p.status } : MsgRec) ∈ StatusUpd.handleStatusUpdate p msgs) ∧
    (∀ (p : StatusUpd.UpdPayload) (msgs : List MsgRec),
      (StatusUpd.handleStatusUpdate p msgs).length = msgs.length) := by
  refine ⟨?_, ?_, ?_, ?_⟩
  · intro p msgs h1 h2
    simp [StatusUpd.handleStatusUpdate, StatusUpd.keyOf, h1, h2]
  · intro p msgs k hk hall
    simp only [StatusUpd.handleStatusUpdate, hk]
    exact StatusUpd.map_unmatched k p.status msgs hall
  · intro p msgs k m hk hm hmatch
    simp only [StatusUpd.handleStatusUpdate, hk]
    exact List.mem_map.mpr ⟨m, hm, by simp [hmatch]⟩
  · intro p msgs
    cases hk : StatusUpd.keyOf p with
    | none => simp [StatusUpd.handleStatusUpdate, hk]
    | some k => simp [StatusUpd.handleStatusUpdate, hk]

/-- Witness for claim C6 at concrete payloads and record lists. -/
theorem claim_C6_witness :
    StatusUpd.handleStatusUpdate ⟨none, none, MsgStatus.sent⟩
      [⟨1, none, MsgStatus.queued⟩] = [⟨1, none, MsgStatus.queued⟩] ∧
    StatusUpd.handleStatusUpdate ⟨some 7, none, MsgStatus.sent⟩
      [⟨1, none, MsgStatus.queued⟩] = [⟨1, none, MsgStatus.queued⟩] ∧
    (⟨1, none, MsgStatus.delivered⟩ : MsgRec) ∈
      StatusUpd.handleStatusUpdate ⟨some 1, none, MsgStatus.delivered⟩
        [⟨1, none, MsgStatus.queued⟩] ∧
    (StatusUpd.handleStatusUpdate ⟨none, some 4, MsgStatus.seen⟩
      [⟨1, some 4, MsgStatus.delivered⟩]).length = 1 :=
  ⟨claim_C6.1 ⟨none, none, MsgStatus.sent⟩ _ rfl rfl,
   claim_C6.2.1 ⟨some 7, none, MsgStatus.sent⟩ _ 7 rfl (by decide),
   claim_C6.2.2.1 ⟨some 1, none, MsgStatus.delivered⟩ _ 1 ⟨1, none, MsgStatus.queued⟩
     rfl (by decide) (by decide),
   claim_C6.2.2.2 ⟨none, some 4, MsgStatus.seen⟩ [⟨1, some 4, MsgStatus.delivered⟩]⟩

/-- C7: the 8-second safety timer armed by answerCall for an
invitation-only incoming call is never cleared (its handle is discarded,
Dashboard.jsx line 1277), so even when the deferred offer arrives and is
answered within the window, the timer still fires, logs that no offer
was received, clears acceptingCall and issues an automatic rejection for
the already-answered call — contradicting the specified behaviour that a
rejection is issued only when no offer arrived in the window. -/
theorem claim_C7_bug :
    (DeferredOffer.aRun DeferredOffer.aInit
      [DeferredOffer.AEv.offerEv true true true,
       DeferredOffer.AEv.timer8s]).answered = true ∧
    (DeferredOffer.aRun DeferredOffer.aInit
      [DeferredOffer.AEv.offerEv true true true,
       DeferredOffer.AEv.timer8s]).inCall = true ∧
    (DeferredOffer.aRun DeferredOffer.aInit
      [DeferredOffer.AEv.offerEv true true true,
       DeferredOffer.AEv.timer8s]).rejectIssued = 1 := by
  decide

/-- C8: the claim fails on the code for two of its three triggers.  At a
concrete active call (live local and remote tracks, open peer
connection, active session 3, inCall, target selected), a remote
callEnded signal or a terminal connectivity state invokes the stale
pre-call endCall closure (callEnded handler registered with effect deps
[selectedUser] at Dashboard.jsx line 1703; pc connectivity handler
installed before the call state commits, lines 971-983): the local track
stays live and nothing is emitted to the other party — only the
ref-based peer-connection close/clear and the singleton sound stop take
effect.  A local hangup, whose control holds the current render's
closure, performs the intended full teardown: track stopped, peer
connection cleared, exactly one end notification.  This evaluates the
embedded code at the failing input and exhibits the divergence from the
claim, which demands stopped tracks and exactly one notification on
every trigger. -/
theorem claim_C8_bug :
    ((Teardown.endWith Teardown.EndTrigger.remoteEnded
        ⟨true, [true], [true], some true, some 3, true, some 7⟩).1.localTracks = [true] ∧
     (Teardown.endWith Teardown.EndTrigger.remoteEnded
        ⟨true, [true], [true], some true, some 3, true, some 7⟩).2 = [] ∧
     (Teardown.endWith Teardown.EndTrigger.remoteEnded
        ⟨true, [true], [true], some true, some 3, true, some 7⟩).1.pcRef = none ∧
     (Teardown.endWith Teardown.EndTrigger.remoteEnded
        ⟨true, [true], [true], some true, some 3, true, some 7⟩).1.ringLoop = false) ∧
    ((Teardown.endWith Teardown.EndTrigger.connTerminal
        ⟨true, [true], [true], some true, some 3, true, some 7⟩).1.localTracks = [true] ∧
     (Teardown.endWith Teardown.EndTrigger.connTerminal
        ⟨true, [true], [true], some true, some 3, true, some 7⟩).2 = []) ∧
    ((Teardown.endWith Teardown.EndTrigger.localHangup
        ⟨true, [true], [true], some true, some 3, true, some 7⟩).1.localTracks = [false] ∧
     Teardown.endMsgCount (Teardown.endWith Teardown.EndTrigger.localHangup
        ⟨true, [true], [true], some true, some 3, true, some 7⟩).2 = 1 ∧
     (Teardown.endWith Teardown.EndTrigger.localHangup
        ⟨true, [true], [true], some true, some 3, true, some 7⟩).1.pcRef = none) := by
  decide

/-- C9: an inbound ICE candidate arriving while no peer connection
exists is silently discarded — the state is completely unchanged, so
nothing is queued and nothing errors — and a candidate is only ever
applied to an already-existing peer connection (Dashboard.jsx
iceCandidate handler, lines 1675-1688). -/
theorem claim_C9 :
    (∀ (s : Ice.IceSt) (c : Nat), s.pc = none → Ice.handleIceCandidate s c = s) ∧
    (∀ (s : Ice.IceSt) (c : Nat) (pc2 : Ice.PC),
      (Ice.handleIceCandidate s c).pc = some pc2 →
      ∃ pc1, s.pc = some pc1 ∧ pc2.candidates = pc1.candidates ++ [c]) := by
  constructor
  · intro s c h
    simp [Ice.handleIceCandidate, h]
  · intro s c pc2 h
    cases hp : s.pc with
    | none =>
      rw [show Ice.handleIceCandidate s c = s from by
        simp [Ice.handleIceCandidate, hp]] at h
      rw [hp] at h
      exact absurd h (by simp)
    | some pc1 =>
      refine ⟨pc1, rfl, ?_⟩
      have heq : ({ candidates := pc1.candidates ++ [c] } : Ice.PC) = pc2 := by
        simpa [Ice.handleIceCandidate, hp] using h
      rw [← heq]

/-- Witness for claim C9 at a concrete candidate. -/
theorem claim_C9_witness :
    Ice.handleIceCandidate ⟨none⟩ 3 = ⟨none⟩ ∧
    (∃ pc1, (⟨some ⟨[]⟩⟩ : Ice.IceSt).pc = some pc1 ∧
      (⟨[3]⟩ : Ice.PC).candidates = pc1.candidates ++ [3]) :=
  ⟨claim_C9.1 ⟨none⟩ 3 rfl, claim_C9.2 ⟨some ⟨[]⟩⟩ 3 ⟨[3]⟩ (by decide)⟩

/-- C10: the connection manager holds at most one live transport at any
time; connect() first tears down any held socket (stopping the
heartbeat and disconnecting it) before creating the new one
(socketManager.js lines 37-68, 239-260). -/
theorem claim_C10 :
    (∀ (ops : List Conn.Op) (i j : Nat),
      (Conn.run Conn.winit ops).live i = true →
      (Conn.run Conn.winit ops).live j = true → i = j) ∧
    (∀ (ops : List Conn.Op) (i : Nat),
      (Conn.run Conn.winit ops).current = some i →
      (Conn.connect (Conn.run Conn.winit ops)).live i = false ∧
      (Conn.connect (Conn.run Conn.winit ops)).heartbeat = false) := by
  constructor
  · intro ops i j hi hj
    have hinv := Conn.run_WInv ops
    have h1 := hinv.1 i hi
    have h2 := hinv.1 j hj
    rw [h1] at h2
    exact Option.some_injective _ h2
  · intro ops i hc
    have hinv := Conn.run_WInv ops
    set w := Conn.run Conn.winit ops with hw
    have hlt : i < w.nextId := hinv.2 i hc
    have hsome : w.current.isSome = true := by rw [hc]; rfl
    constructor
    · show (Conn.connect w).live i = false
      unfold Conn.connect
      simp only [hsome, if_true]
      have hcl : (Conn.cleanup w).live i = false := Conn.cleanup_live_false w hinv i
      have hne : i ≠ (Conn.cleanup w).nextId := by
        have : (Conn.cleanup w).nextId = w.nextId := by
          unfold Conn.cleanup Conn.stopHeartbeat
          cases w.current <;> rfl
        omega
      simp [Conn.setLive, hne, hcl]
    · show (Conn.connect w).heartbeat = false
      unfold Conn.connect
      simp only [hsome, if_true]
      unfold Conn.cleanup Conn.stopHeartbeat
      cases hcc : w.current with
      | none => rfl
      | some j => rfl

/-- Witness for claim C10: after one connect the single created socket
is live, a second index is not, and a further connect disconnects the
held socket. -/
theorem claim_C10_witness :
    ((Conn.run Conn.winit [Conn.Op.connectCall]).live 0 = true →
      (Conn.run Conn.winit [Conn.Op.connectCall]).live 0 = true → (0 : Nat) = 0) ∧
    ((Conn.connect (Conn.run Conn.winit [Conn.Op.connectCall])).live 0 = false ∧
      (Conn.connect (Conn.run Conn.winit [Conn.Op.connectCall])).heartbeat = false) :=
  ⟨fun h1 h2 => claim_C10.1 [Conn.Op.connectCall] 0 0 h1 h2,
   claim_C10.2 [Conn.Op.connectCall] 0 rfl⟩
